import Mathlib

/-!
Verification of the schema-inference and ingestion pipeline of the
Data-upload repository (src/data_processor.py, src/schemas.py,
src/tables.py), as a shallow embedding in Lean.

Python DataFrame cells are modelled by `RawValue`; `datetime` objects by
`PyDatetime` (an abstract instant plus an optional timezone tag); the
external dateutil string parser is a parameter of type
`String → Except String PyDatetime` (it may fail, modelling a raised
parse exception).  Python floats that appear in the pipeline (match
ratios, numeric cells) are modelled by `ℚ`; the values involved are
small exact fractions, so the float comparisons of the source coincide
with the rational ones.
-/

/-- An abstract `datetime.datetime` value: an instant (epoch seconds)
together with its `tzinfo` (none = naive datetime). -/
structure PyDatetime where
  epochSeconds : Int
  tz : Option String
deriving DecidableEq

/-- A raw spreadsheet cell as pandas delivers it: missing (None/NaN),
a string, a number, or an already-parsed datetime. -/
inductive RawValue where
  | missing
  | str (s : String)
  | num (q : ℚ)
  | dt (d : PyDatetime)
deriving DecidableEq

/-- Python truthiness combined with the `pd.isna` test, as used in the
guard `if pd.isna(date_str) or not date_str`. `None`/`NaN` are both
covered by `missing`; the empty string and the number 0 are falsy;
datetimes are always truthy. -/
def pyFalsy : RawValue → Bool
  | .missing => true
  | .str s => s == ""
  | .num q => q == 0
  | .dt _ => false

/-- ASCII lower-casing of one character, modelling `str.lower` on the
ASCII header names the pipeline sees. -/
def pyToLower (c : Char) : Char :=
  if 'A' ≤ c ∧ c ≤ 'Z' then Char.ofNat (c.toNat + 32) else c

/-- The whitespace characters removed by Python `str.strip`. -/
def pyIsSpace (c : Char) : Bool :=
  c == ' ' || c == '\t' || c == '\n' || c == '\r' || c == '\x0b' || c == '\x0c'

/-- Python `str.strip`: drop leading and trailing whitespace. -/
def pyStrip (cs : List Char) : List Char :=
  ((cs.dropWhile pyIsSpace).reverse.dropWhile pyIsSpace).reverse

/-- `normalize_column_name` from src/data_processor.py:
`str(col).lower().strip().replace(' ', '_')`. -/
def normalize_column_name (s : String) : String :=
  String.mk ((pyStrip (s.data.map pyToLower)).map (fun c => if c == ' ' then '_' else c))

/-- Value of a digit string, most significant first. -/
def digitsVal (cs : List Char) : Nat :=
  cs.foldl (fun n c => 10 * n + (c.toNat - 48)) 0

/-- Model of the numeric-string grammar accepted by `pd.to_numeric` for
the decimal inputs this pipeline meets: optional surrounding whitespace,
optional sign, digits with at most one decimal point. Anything else
(e.g. "abc") is not numeric. -/
def parseNumStr (s : String) : Option ℚ :=
  let cs := pyStrip s.data
  let sgn : Int × List Char :=
    match cs with
    | '-' :: r => (-1, r)
    | '+' :: r => (1, r)
    | _ => (1, cs)
  match sgn.2.span (fun c => !(c == '.')) with
  | (intPart, []) =>
    if intPart ≠ [] ∧ intPart.all Char.isDigit then
      some ((sgn.1 * (digitsVal intPart : Int) : Int) : ℚ)
    else none
  | (intPart, _dot :: fracPart) =>
    if (intPart ≠ [] ∨ fracPart ≠ []) ∧ intPart.all Char.isDigit ∧ fracPart.all Char.isDigit then
      some ((sgn.1 : ℚ) * ((digitsVal intPart : ℚ) + (digitsVal fracPart : ℚ) / (10 ^ fracPart.length)))
    else none

/-- `pd.to_numeric(value, errors='coerce')` on a single cell: numbers
pass through, numeric strings are parsed, datetimes become epoch
nanoseconds, everything else coerces to NaN (modelled as `none`). -/
def toNumeric : RawValue → Option ℚ
  | .missing => none
  | .num q => some q
  | .str s => parseNumStr s
  | .dt d => some ((d.epochSeconds : ℚ) * 1000000000)

/-- The float→int cast performed by `.astype(int)`: truncation toward
zero. -/
def truncToInt (q : ℚ) : Int :=
  q.num.tdiv (q.den : Int)

/-- Integer coercion of one cell, from
`pd.to_numeric(df[col], errors='coerce').fillna(0).astype(int)`
(identical in src/data_processor.py line 156 and src/tables.py
line 157): non-numeric or missing values become 0. -/
def coerceInt (v : RawValue) : Int :=
  truncToInt ((toNumeric v).getD 0)

/-- `str(value)` applied by `.astype(str)`; the exact rendering of
non-string values is a display concern modelled schematically. -/
def pyStr : RawValue → String
  | .str s => s
  | .missing => "nan"
  | .num q => toString q
  | .dt d => "datetime " ++ toString d.epochSeconds

/-- `parse_timestamp_flexible` from src/data_processor.py lines
107-121. `dateutilParse` is the external `dateutil.parser.parse`;
an `Except.error` result models a raised exception, which the
source's catch-all `except` turns into `None`.  A naive parsed
datetime is localized to the given timezone; a non-string,
non-datetime, non-falsy value falls through to `None`. -/
def parse_timestamp_flexible (dateutilParse : String → Except String PyDatetime)
    (timezone : String) (v : RawValue) : Option PyDatetime :=
  if pyFalsy v then none
  else
    match v with
    | .str s =>
      match dateutilParse s with
      | .ok d => some (if d.tz.isNone then { d with tz := some timezone } else d)
      | .error _ => none
    | .dt d => some d
    | _ => none

/-- A dateutil stand-in that fails on every input, for concrete
instantiations. -/
def errParser : String → Except String PyDatetime :=
  fun _ => Except.error "parse error"

/-- The target type declared for a column in a schema. -/
inductive FieldType where
  | text
  | integer
  | timestamp
deriving DecidableEq

/-- One entry of `TABLE_SCHEMAS`: canonical column names, their parallel
types, and the declared source-header renames (alias → canonical). -/
structure Schema where
  columns : List String
  types : List FieldType
  renames : List (String × String)
deriving DecidableEq

/-- A coerced output cell produced by `validate_data`. -/
inductive Value where
  | vText (s : String)
  | vInt (n : Int)
  | vTime (t : Option PyDatetime)
deriving DecidableEq

/-- A pandas DataFrame as the pipeline sees it: a header row and data
rows, each row aligned positionally with the headers. -/
structure Table where
  headers : List String
  rows : List (List RawValue)

namespace DataProcessor

/-! Embedding of src/data_processor.py with the schema registry of
src/schemas.py. -/

def ContactsSchema : Schema :=
  { columns := ["name", "phone_number", "email", "last_contacted"]
    types := [.text, .text, .text, .timestamp]
    renames := [("Name", "name"), ("Phone Number", "phone_number"),
                ("Email Id", "email"), ("Last Contacted", "last_contacted")] }

def InstalledAppsSchema : Schema :=
  { columns := ["application_name", "package_name", "install_date"]
    types := [.text, .text, .timestamp]
    renames := [("Application Name", "application_name"), ("Package Name", "package_name"),
                ("Installed Date", "install_date")] }

def CallsSchema : Schema :=
  { columns := ["call_type", "time", "from_to", "duration", "location"]
    types := [.text, .timestamp, .text, .integer, .text]
    renames := [("Call type", "call_type"), ("Time", "time"), ("From/To", "from_to"),
                ("Duration (Sec)", "duration"), ("Location", "location")] }

def SMSSchema : Schema :=
  { columns := ["sms_type", "time", "from_to", "text", "location"]
    types := [.text, .timestamp, .text, .text, .text]
    renames := [("SMS type", "sms_type"), ("Time", "time"), ("From/To", "from_to"),
                ("Text", "text"), ("Location", "location")] }

def ChatMessagesSchema : Schema :=
  { columns := ["messenger", "time", "sender", "text"]
    types := [.text, .timestamp, .text, .text]
    renames := [("Messenger", "messenger"), ("Time", "time"), ("Sender", "sender"),
                ("Text", "text")] }

def KeylogsSchema : Schema :=
  { columns := ["application", "time", "text"]
    types := [.text, .timestamp, .text]
    renames := [("Application", "application"), ("Time", "time"), ("Text", "text")] }

/-- src/schemas.py declares KeylogImport with exactly the same columns,
types and renames as Keylogs. -/
def KeylogImportSchema : Schema :=
  { columns := ["application", "time", "text"]
    types := [.text, .timestamp, .text]
    renames := [("Application", "application"), ("Time", "time"), ("Text", "text")] }

/-- `TABLE_SCHEMAS` of src/schemas.py, in its declared (insertion)
order, which is also the iteration order of `identify_table`. -/
def TABLE_SCHEMAS : List (String × Schema) :=
  [("Contacts", ContactsSchema), ("InstalledApps", InstalledAppsSchema),
   ("Calls", CallsSchema), ("SMS", SMSSchema), ("ChatMessages", ChatMessagesSchema),
   ("Keylogs", KeylogsSchema), ("KeylogImport", KeylogImportSchema)]

def BATCH_SIZE : Nat := 1000

/-- The normalized header set of a schema column list, as in
`{normalize_column_name(col) for col in ...}`. -/
def normSet (cols : List String) : List String :=
  (cols.map normalize_column_name).dedup

/-- `len(schema_headers.intersection(file_headers))`. -/
def interCount (schemaSet fileHeaders : List String) : Nat :=
  (schemaSet.filter (fun h => fileHeaders.contains h)).length

/-- The match ratio `len(intersection) / len(schema_headers)` as the
exact rational the float division denotes. -/
def matchRatioQ (schemaSet fileHeaders : List String) : ℚ :=
  (interCount schemaSet fileHeaders : ℚ) / (schemaSet.length : ℚ)

/-- The source's float test `ratio >= 0.8`, transposed to integer
arithmetic: for a nonempty schema set, `inter/total ≥ 4/5` holds
exactly when `5*inter ≥ 4*total` (see `ratioGe_iff_matchRatioQ`); for
the denominators 3–5 occurring here the float comparison is exact. -/
def ratioGe (inter total : Nat) : Bool :=
  4 * total ≤ 5 * inter

/-- The normalized required keylog headers
`{normalize_column_name(h) for h in {'application','time','text'}}`
(normalization is the identity on them). -/
def requiredKeylogHeaders : List String := ["application", "time", "text"]

/-- The ratio-based part of the `identify_table` loop body: does the
file header set reach the 0.8 threshold against the entry's schema
headers or against its rename headers
(`schema_match_ratio >= 0.8 or rename_match_ratio >= 0.8`)? -/
def ratioMatches (fileHeaders : List String) (entry : String × Schema) : Bool :=
  ratioGe (interCount (normSet entry.2.columns) fileHeaders) (normSet entry.2.columns).length
    || ratioGe (interCount (normSet (entry.2.renames.map Prod.fst)) fileHeaders)
         (normSet (entry.2.renames.map Prod.fst)).length

/-- The per-entry match test of the `identify_table` loop body
(src/data_processor.py lines 22-46): the Keylog special case (only for
the `KeylogImport`/`Keylogs` entries), otherwise the 0.8 ratio test on
either the schema headers or the rename headers. -/
def matchesEntry (fileHeaders : List String) (entry : String × Schema) : Bool :=
  (decide (entry.1 = "KeylogImport" ∨ entry.1 = "Keylogs")
      && requiredKeylogHeaders.all (fun h => fileHeaders.contains h))
    || ratioMatches fileHeaders entry

/-- The `for table, schema in TABLE_SCHEMAS.items()` loop: return the
first entry whose test succeeds. -/
def identifyList (fileHeaders : List String) : List (String × Schema) → Option String
  | [] => none
  | e :: rest => if matchesEntry fileHeaders e then some e.1 else identifyList fileHeaders rest

/-- `identify_table` from src/data_processor.py lines 15-50. -/
def identify_table (headers : List String) : Option String :=
  identifyList (headers.map normalize_column_name) TABLE_SCHEMAS

/-- The dict comprehension
`{normalize_column_name(col): col for col in original_columns}`:
on a key collision the later column wins, hence the lookup scans the
reversed header list. -/
def norm_to_orig (headers : List String) (k : String) : Option String :=
  headers.reverse.find? (fun c => normalize_column_name c == k)

/-- The `column_mapping` loop of `validate_data` (src/data_processor.py
lines 137-141): for each expected canonical column, in schema order,
map the original header whose normalized name equals the normalized
canonical name.  The mapping pairs are (original header, canonical). -/
def column_mapping (headers : List String) (schema : Schema) : List (String × String) :=
  schema.columns.filterMap
    (fun ec => (norm_to_orig headers (normalize_column_name ec)).map (fun orig => (orig, ec)))

/-- The declared type of a canonical column, from
`zip(schema["columns"], schema["types"])`. -/
def fieldTypeOf (schema : Schema) (c : String) : FieldType :=
  ((schema.columns.zip schema.types).lookup c).getD .text

/-- Column access `df[orig]` on one row: the cell at the position of
the header `orig`. -/
def getCell (headers : List String) (row : List RawValue) (orig : String) : RawValue :=
  match headers.findIdx? (fun h => h == orig) with
  | some i => row.getD i .missing
  | none => .missing

/-- The per-type conversion of `validate_data` (lines 150-158):
datetime columns through `parse_timestamp_flexible`, integer columns
through the `to_numeric`/`fillna(0)` coercion, all others to `str`. -/
def coerceCell (dateutilParse : String → Except String PyDatetime) (tz : String)
    (ft : FieldType) (v : RawValue) : Value :=
  match ft with
  | .timestamp => .vTime (parse_timestamp_flexible dateutilParse tz v)
  | .integer => .vInt (coerceInt v)
  | .text => .vText (pyStr v)

/-- The error message of `validate_data` when no column resolves
(the source interpolates `schema['columns']` into the text). -/
def noMatchMsg (schema : Schema) : String :=
  "No matching columns found in the data. Expected columns: " ++
    String.intercalate ", " schema.columns

/-- `validate_data` from src/data_processor.py lines 123-162: look up
the schema, build the column mapping, fail if it is empty, otherwise
project the table to the resolved columns (renamed to their canonical
names) and coerce every cell by its declared type.  The result is the
list of canonical output columns together with the coerced rows. -/
def validate_data (dateutilParse : String → Except String PyDatetime) (tz : String)
    (t : Table) (tableName : String) : Except String (List String × List (List Value)) :=
  match TABLE_SCHEMAS.lookup tableName with
  | none => .error ("Schema not found for table: " ++ tableName)
  | some schema =>
    let cm := column_mapping t.headers schema
    if cm.isEmpty then .error (noMatchMsg schema)
    else
      .ok (cm.map Prod.snd,
        t.rows.map (fun row =>
          cm.map (fun p => coerceCell dateutilParse tz (fieldTypeOf schema p.2)
            (getCell t.headers row p.1))))

/-- The store, modelled as the ordered log of `to_sql(..., if_exists=
'append')` calls: each entry is one written batch, tagged with its
target table. -/
abbrev Store := List (String × List (List Value))

set_option linter.unusedVariables false in
/-- The slices `df.iloc[i:i+BATCH_SIZE]` for `i in range(0, len(df),
BATCH_SIZE)`. -/
def batchSlices (rows : List α) (bs : Nat) : List (List α) :=
  if h : rows.isEmpty ∨ bs = 0 then []
  else rows.take bs :: batchSlices (rows.drop bs) bs
termination_by rows.length
decreasing_by
  rw [List.length_drop]
  rcases not_or.mp h with ⟨h1, h2⟩
  have hne : rows ≠ [] := by
    intro e
    exact h1 (by simp [e])
  have hpos : 0 < rows.length := List.length_pos.mpr hne
  omega

/-- The insertion loop of src/data_processor.py lines 199-203: write
the batches sequentially to the store connection, accumulating
`stats["processed_rows"]`. -/
def insertLoop (store : Store) (tableName : String) (rows : List (List Value)) : Store × Nat :=
  (batchSlices rows BATCH_SIZE).foldl
    (fun acc b => (acc.1 ++ [(tableName, b)], acc.2 + b.length)) (store, 0)

/-- The statistics record returned by `process_and_insert_data`. -/
structure Stats where
  total_rows : Nat
  processed_rows : Nat
  failed_rows : Nat
  table_name : Option String
deriving DecidableEq

def unidentifiedMsg : String :=
  "Could not identify table schema. Please check the file headers."

/-- `process_and_insert_data` from src/data_processor.py lines
164-210, from the point where the DataFrame has been read: identify
the table (raising if unidentified, before the store connection is
even opened), validate, then insert in batches.  Raised errors are
returned as `Except.error` together with the store as it stands. -/
def process_and_insert_data (dateutilParse : String → Except String PyDatetime) (tz : String)
    (store : Store) (t : Table) : Store × Except String Stats :=
  match identify_table t.headers with
  | none => (store, .error unidentifiedMsg)
  | some tableName =>
    match validate_data dateutilParse tz t tableName with
    | .error e => (store, .error e)
    | .ok res =>
      let out := insertLoop store tableName res.2
      (out.1, .ok { total_rows := t.rows.length, processed_rows := out.2,
                    failed_rows := 0, table_name := some tableName })

set_option linter.unusedVariables false in
/-- The arithmetic skeleton of the batch slicing: the sizes of the
successive `iloc` slices of a table with `n` rows. -/
def sliceSizes (n bs : Nat) : List Nat :=
  if h : n = 0 ∨ bs = 0 then []
  else min bs n :: sliceSizes (n - bs) bs
termination_by n
decreasing_by
  rcases not_or.mp h with ⟨h1, h2⟩
  omega

end DataProcessor

namespace TablesPy

/-! Embedding of the InstalledApps ingestion path of src/tables.py:
`process_data` de-duplicates on (package_name, install_date) and
`insert_data` writes each surviving record with
`INSERT OR REPLACE INTO InstalledApps` under the store constraint
`UNIQUE(package_name, install_date)` (src/tables.py lines 65-71,
165-181, 193-224).  A validated InstalledApps record is `AppRow`; the
store table is the list of its rows. -/

structure AppRow where
  application_name : String
  package_name : String
  install_date : Option PyDatetime
deriving DecidableEq

/-- The conflict key (package identifier, install timestamp). -/
def rowKey (r : AppRow) : String × Option PyDatetime :=
  (r.package_name, r.install_date)

/-- The scan behind `df.drop_duplicates(subset=["package_name",
"install_date"])`: keep a row when its key has not been seen before.
Pandas treats missing values as equal to each other here, so absent
install dates do compare equal at this stage. -/
def dedupByKeyAux (seen : List (String × Option PyDatetime)) : List AppRow → List AppRow
  | [] => []
  | r :: rest =>
    if rowKey r ∈ seen then dedupByKeyAux seen rest
    else r :: dedupByKeyAux (rowKey r :: seen) rest

/-- `df.drop_duplicates(subset=["package_name", "install_date"])`:
keep the first row of each key. -/
def dedupByKey (rows : List AppRow) : List AppRow :=
  dedupByKeyAux [] rows

/-- One `INSERT OR REPLACE` under the store constraint
`UNIQUE(package_name, install_date)`.  SQLite treats NULL as distinct
inside UNIQUE constraints, so a row whose install_date is absent
(NULL) conflicts with nothing and is plainly appended; only a row
carrying a present install_date replaces the row with the same
(package identifier, install timestamp) pair. -/
def insertOrReplace (store : List AppRow) (r : AppRow) : List AppRow :=
  store.filter (fun x => !(decide (rowKey x = rowKey r ∧ r.install_date ≠ none))) ++ [r]

/-- The per-row loop of `insert_data` for InstalledApps; the batch
grouping traverses the rows in order, so the store evolution is the
plain left fold of `insertOrReplace`. -/
def insert_data (store : List AppRow) (rows : List AppRow) : List AppRow :=
  rows.foldl insertOrReplace store

/-- One ingestion of an InstalledApps file whose validated records are
`rows`: `process_data` de-duplication followed by `insert_data`. -/
def ingestInstalledApps (store : List AppRow) (rows : List AppRow) : List AppRow :=
  insert_data store (dedupByKey rows)

/-- The store invariant maintained by `UNIQUE(package_name,
install_date)`: no two rows share a key. -/
def distinctKeys (s : List AppRow) : Prop :=
  s.Pairwise (fun a b => rowKey a ≠ rowKey b)

/-- A key is present in a store. -/
def hasKey (s : List AppRow) (k : String × Option PyDatetime) : Prop :=
  ∃ x ∈ s, rowKey x = k

end TablesPy

/-- Resolution rule exactly as claim C1 states it: a canonical field
resolves if its canonical name is directly present or any declared
alias of it is present, both under normalized-name comparison.  Stated
for comparison with `DataProcessor.column_mapping`, which is what the
code actually does. -/
def resolvedPerClaim (headers : List String) (schema : Schema) : List String :=
  let hn := headers.map normalize_column_name
  schema.columns.filter (fun c =>
    hn.contains (normalize_column_name c)
      || schema.renames.any (fun p => p.2 == c && hn.contains (normalize_column_name p.1)))

/-- Numeric-timestamp interpretation as claim C6 states it: a numeric
value is read as Unix epoch seconds when inside the representable
datetime range, otherwise as a spreadsheet serial date (days since
1899-12-30, i.e. 25569 days before the Unix epoch).  Stated for
comparison with `parse_timestamp_flexible`, which has no numeric
branch at all. -/
def claimNumericInterp (q : ℚ) : Option PyDatetime :=
  if -62135596800 ≤ q ∧ q ≤ 253402300799 then
    some ⟨truncToInt q, some "UTC"⟩
  else
    some ⟨truncToInt ((q - 25569) * 86400), some "UTC"⟩

/-- C6, counterexample: on the numeric value 1700000000 (a perfectly
good Unix epoch timestamp) the timestamp normalizer returns Absent,
while the claimed epoch-seconds interpretation would produce an
instant: numeric values are never interpreted as epoch seconds or
serial dates. -/
theorem claim6_counterexample :
    parse_timestamp_flexible errParser "UTC" (RawValue.num 1700000000) = none
      ∧ (claimNumericInterp 1700000000).isSome = true := by
  constructor
  · rfl
  · decide

/-- C6, amended: every numeric raw value given to the timestamp
normalizer yields Absent — the value 0 through the falsiness guard,
every other number through the non-string, non-datetime fallthrough;
there is no Unix-epoch or spreadsheet-serial interpretation. -/
theorem claim6_amended (dateutilParse : String → Except String PyDatetime) (tz : String)
    (q : ℚ) : parse_timestamp_flexible dateutilParse tz (RawValue.num q) = none := by
  simp only [parse_timestamp_flexible]
  split
  · rfl
  · rfl

/-- C7: the timestamp normalizer is total over its input domain: every
raw value is mapped to an instant or Absent (it is a plain function
into `Option`, all exceptions of the inner parse being caught); the
missing value and the blank string yield Absent, and so does every
input whose string parse fails. -/
theorem claim7_timestamp_total (dateutilParse : String → Except String PyDatetime)
    (tz : String) :
    (∀ v, (parse_timestamp_flexible dateutilParse tz v).isNone = true
        ∨ (parse_timestamp_flexible dateutilParse tz v).isSome = true)
      ∧ parse_timestamp_flexible dateutilParse tz RawValue.missing = none
      ∧ parse_timestamp_flexible dateutilParse tz (RawValue.str "") = none
      ∧ ∀ s e, dateutilParse s = Except.error e →
          parse_timestamp_flexible dateutilParse tz (RawValue.str s) = none := by
  refine ⟨fun v => ?_, rfl, rfl, fun s e h => ?_⟩
  · rcases parse_timestamp_flexible dateutilParse tz v with _ | t <;> simp
  · simp only [parse_timestamp_flexible]
    split
    · rfl
    · simp [h]

/-- C7, witness: a concretely failing parse yields Absent rather than
an error. -/
theorem claim7_witness :
    parse_timestamp_flexible errParser "UTC" (RawValue.str "not a date") = none :=
  (claim7_timestamp_total errParser "UTC").2.2.2 "not a date" "parse error" rfl

/-- C8: integer field coercion maps "12", 12.0, None and "abc" to 12,
12, 0 and 0, and in general every value `to_numeric` cannot convert —
non-numeric or missing — coerces to 0 rather than raising. -/
theorem claim8_integer_coercion :
    coerceInt (RawValue.str "12") = 12
      ∧ coerceInt (RawValue.num 12) = 12
      ∧ coerceInt RawValue.missing = 0
      ∧ coerceInt (RawValue.str "abc") = 0
      ∧ ∀ v, toNumeric v = none → coerceInt v = 0 := by
  refine ⟨by decide, by decide, by decide, by decide, fun v h => ?_⟩
  simp only [coerceInt, h, Option.getD_none]
  decide

/-- C8, witness: a concrete non-numeric string coerces to 0 through
the general non-numeric clause. -/
theorem claim8_witness : coerceInt (RawValue.str "three") = 0 :=
  claim8_integer_coercion.2.2.2.2 (RawValue.str "three") (by decide)

namespace DataProcessor

/-- `ratioGe` is exactly the rational comparison the source's float
division performs. -/
theorem ratioGe_iff_matchRatioQ (schemaSet fileHeaders : List String)
    (h : 0 < schemaSet.length) :
    ratioGe (interCount schemaSet fileHeaders) schemaSet.length = true ↔
      4 / 5 ≤ matchRatioQ schemaSet fileHeaders := by
  have hq : (0 : ℚ) < (schemaSet.length : ℚ) := by exact_mod_cast h
  rw [matchRatioQ, ratioGe, div_le_div_iff₀ (by norm_num) hq, decide_eq_true_eq]
  constructor
  · intro hle
    calc (4 : ℚ) * schemaSet.length = ((4 * schemaSet.length : ℕ) : ℚ) := by push_cast; ring
    _ ≤ ((5 * interCount schemaSet fileHeaders : ℕ) : ℚ) := by exact_mod_cast hle
    _ = (interCount schemaSet fileHeaders : ℚ) * 5 := by push_cast; ring
  · intro hle
    have : ((4 * schemaSet.length : ℕ) : ℚ) ≤ ((5 * interCount schemaSet fileHeaders : ℕ) : ℚ) := by
      push_cast
      linarith
    exact_mod_cast this

/-- The KeylogImport registry entry imposes exactly the same match
condition as the Keylogs entry: the two schemas have identical columns
and renames, and both names enjoy the keylog special case. -/
theorem matchesEntry_keylog_eq (fileHeaders : List String) :
    matchesEntry fileHeaders ("KeylogImport", KeylogImportSchema) =
      matchesEntry fileHeaders ("Keylogs", KeylogsSchema) := rfl

end DataProcessor

namespace TablesPy

/-- Every row kept by the de-duplication scan comes from the input
file. -/
theorem dedupByKeyAux_subset : ∀ (l : List AppRow) (seen : List (String × Option PyDatetime))
    (x : AppRow), x ∈ dedupByKeyAux seen l → x ∈ l := by
  intro l
  induction l with
  | nil =>
    intro seen x hx
    simp [dedupByKeyAux] at hx
  | cons r rest ih =>
    intro seen x hx
    rw [dedupByKeyAux] at hx
    by_cases hs : rowKey r ∈ seen
    · rw [if_pos hs] at hx
      exact List.mem_cons_of_mem r (ih seen x hx)
    · rw [if_neg hs] at hx
      rcases List.mem_cons.mp hx with rfl | hx2
      · exact List.mem_cons_self x rest
      · exact List.mem_cons_of_mem r (ih _ x hx2)

/-- Every row surviving the de-duplication comes from the input
file. -/
theorem dedupByKey_subset (l : List AppRow) (x : AppRow) (hx : x ∈ dedupByKey l) : x ∈ l :=
  dedupByKeyAux_subset l [] x hx

/-- For a row with a present install date, the NULL-distinct conflict
test collapses to plain key equality. -/
theorem insertOrReplace_of_dated (s : List AppRow) (r : AppRow)
    (hr : r.install_date ≠ none) :
    insertOrReplace s r = s.filter (fun x => !(decide (rowKey x = rowKey r))) ++ [r] := by
  unfold insertOrReplace
  congr 1
  apply List.filter_congr
  intro x _
  exact congrArg (fun b => !b) (decide_eq_decide.mpr (and_iff_left hr))

/-- `INSERT OR REPLACE` of a row with a present install date preserves
the uniqueness of keys. -/
theorem insertOrReplace_distinct (s : List AppRow) (r : AppRow)
    (hr : r.install_date ≠ none) (h : distinctKeys s) :
    distinctKeys (insertOrReplace s r) := by
  rw [insertOrReplace_of_dated s r hr]
  unfold distinctKeys
  rw [List.pairwise_append]
  refine ⟨h.filter _, List.pairwise_singleton _ _, ?_⟩
  intro a ha b hb
  rcases List.mem_filter.mp ha with ⟨_, hpa⟩
  rcases List.mem_singleton.mp hb with rfl
  simpa using hpa

/-- The newly written row's key is present afterwards. -/
theorem hasKey_insertOrReplace_self (s : List AppRow) (r : AppRow) :
    hasKey (insertOrReplace s r) (rowKey r) :=
  ⟨r, List.mem_append_right _ (List.mem_singleton.mpr rfl), rfl⟩

/-- Keys present before an `INSERT OR REPLACE` are still present
afterwards. -/
theorem hasKey_insertOrReplace_mono (s : List AppRow) (r : AppRow) (k : String × Option PyDatetime)
    (h : hasKey s k) : hasKey (insertOrReplace s r) k := by
  rcases h with ⟨x, hx, hk⟩
  by_cases hxr : rowKey x = rowKey r
  · rw [← hk, hxr]
    exact hasKey_insertOrReplace_self s r
  · exact ⟨x, List.mem_append_left _ (List.mem_filter.mpr ⟨hx, by simp [hxr]⟩), hk⟩

/-- Under key uniqueness, removing the one row with a present key
shortens the store by exactly one. -/
theorem length_filter_of_hasKey (k : String × Option PyDatetime) :
    ∀ (s : List AppRow), distinctKeys s → hasKey s k →
      (s.filter (fun x => !(decide (rowKey x = k)))).length + 1 = s.length := by
  intro s
  induction s with
  | nil =>
    rintro _ ⟨x, hx, _⟩
    exact absurd hx (List.not_mem_nil x)
  | cons a t ih =>
    intro hd hk
    rcases List.pairwise_cons.mp hd with ⟨ha, ht⟩
    by_cases hak : rowKey a = k
    · have hfa : (a :: t).filter (fun x => !(decide (rowKey x = k)))
          = t.filter (fun x => !(decide (rowKey x = k))) := by
        rw [List.filter_cons]
        simp [hak]
      rw [hfa, List.filter_eq_self.mpr]
      · rfl
      · intro x hx
        have : rowKey a ≠ rowKey x := ha x hx
        simp [hak ▸ this.symm]
    · have hkt : hasKey t k := by
        rcases hk with ⟨x, hx, hxk⟩
        rcases List.mem_cons.mp hx with rfl | hxt
        · exact absurd hxk hak
        · exact ⟨x, hxt, hxk⟩
      have hfa : (a :: t).filter (fun x => !(decide (rowKey x = k)))
          = a :: t.filter (fun x => !(decide (rowKey x = k))) := by
        rw [List.filter_cons]
        simp [hak]
      rw [hfa, List.length_cons, List.length_cons]
      have := ih ht hkt
      omega

/-- When a row with a present install date is written over a store
with unique keys holding its key, `INSERT OR REPLACE` leaves the row
count unchanged. -/
theorem insertOrReplace_length (s : List AppRow) (r : AppRow) (hr : r.install_date ≠ none)
    (hd : distinctKeys s) (hk : hasKey s (rowKey r)) :
    (insertOrReplace s r).length = s.length := by
  rw [insertOrReplace_of_dated s r hr, List.length_append]
  have := length_filter_of_hasKey (rowKey r) s hd hk
  simpa using this

/-- The per-row insertion loop of rows with present install dates
preserves key uniqueness. -/
theorem insert_data_distinct : ∀ (l : List AppRow) (s : List AppRow),
    (∀ r ∈ l, r.install_date ≠ none) → distinctKeys s →
      distinctKeys (insert_data s l) := by
  intro l
  induction l with
  | nil => exact fun s _ h => h
  | cons r t ih =>
    intro s hdates h
    exact ih (insertOrReplace s r)
      (fun x hx => hdates x (List.mem_cons_of_mem r hx))
      (insertOrReplace_distinct s r (hdates r (List.mem_cons_self r t)) h)

/-- The per-row insertion loop never removes a present key. -/
theorem insert_data_hasKey_mono : ∀ (l : List AppRow) (s : List AppRow)
    (k : String × Option PyDatetime), hasKey s k → hasKey (insert_data s l) k := by
  intro l
  induction l with
  | nil => exact fun s k h => h
  | cons r t ih =>
    intro s k h
    exact ih (insertOrReplace s r) k (hasKey_insertOrReplace_mono s r k h)

/-- Every inserted row's key is present after the insertion loop. -/
theorem insert_data_hasKey_of_mem : ∀ (l : List AppRow) (s : List AppRow) (r : AppRow),
    r ∈ l → hasKey (insert_data s l) (rowKey r) := by
  intro l
  induction l with
  | nil =>
    intro s r h
    exact absurd h (List.not_mem_nil r)
  | cons a t ih =>
    intro s r h
    rcases List.mem_cons.mp h with rfl | ht
    · exact insert_data_hasKey_mono t (insertOrReplace s r) (rowKey r)
        (hasKey_insertOrReplace_self s r)
    · exact ih (insertOrReplace s a) r ht

/-- Inserting rows with present install dates whose keys are all
already present leaves the row count unchanged. -/
theorem insert_data_length : ∀ (l : List AppRow) (s : List AppRow),
    (∀ r ∈ l, r.install_date ≠ none) → distinctKeys s →
      (∀ r ∈ l, hasKey s (rowKey r)) → (insert_data s l).length = s.length := by
  intro l
  induction l with
  | nil => exact fun s _ _ _ => rfl
  | cons r t ih =>
    intro s hdates hd hall
    have hr := hdates r (List.mem_cons_self r t)
    have h1 : (insert_data (insertOrReplace s r) t).length = (insertOrReplace s r).length :=
      ih (insertOrReplace s r)
        (fun x hx => hdates x (List.mem_cons_of_mem r hx))
        (insertOrReplace_distinct s r hr hd)
        (fun x hx => hasKey_insertOrReplace_mono s r (rowKey x)
          (hall x (List.mem_cons_of_mem r hx)))
    have h2 : (insertOrReplace s r).length = s.length :=
      insertOrReplace_length s r hr hd (hall r (List.mem_cons_self r t))
    exact h1.trans h2

end TablesPy

/-- C3, counterexample: a record with an absent install timestamp
never conflicts, because SQLite treats NULL as distinct inside
`UNIQUE(package_name, install_date)` — such a value is reachable via a
missing or unparseable date.  Re-ingesting the identical one-record
file duplicates the row: the store holds 1 row after the first
ingestion and 2 rows after the second, so the claimed unconditional
row-count equality fails. -/
theorem claim3_counterexample :
    (TablesPy.ingestInstalledApps [] [⟨"Maps", "com.maps", none⟩]).length = 1
      ∧ (TablesPy.ingestInstalledApps
            (TablesPy.ingestInstalledApps [] [⟨"Maps", "com.maps", none⟩])
            [⟨"Maps", "com.maps", none⟩]).length = 2 := by
  constructor
  · rfl
  · rfl

/-- C3, amended: for an InstalledApp file all of whose records carry a
present (non-NULL) install timestamp, ingestion de-duplicates on
(package identifier, install timestamp) and writes with
insert-or-replace keyed on that pair, so re-ingesting the identical
file a second time leaves the store's row count unchanged and the
store holds no two rows with the same key after either ingestion;
records with an absent install timestamp fall outside the UNIQUE
constraint and are duplicated instead. -/
theorem claim3_reingest_idempotent (store : List TablesPy.AppRow)
    (rows : List TablesPy.AppRow) (h : TablesPy.distinctKeys store)
    (hdates : ∀ r ∈ rows, r.install_date ≠ none) :
    (TablesPy.ingestInstalledApps (TablesPy.ingestInstalledApps store rows) rows).length
        = (TablesPy.ingestInstalledApps store rows).length
      ∧ TablesPy.distinctKeys (TablesPy.ingestInstalledApps store rows)
      ∧ TablesPy.distinctKeys
          (TablesPy.ingestInstalledApps (TablesPy.ingestInstalledApps store rows) rows) := by
  have hdd : ∀ r ∈ TablesPy.dedupByKey rows, r.install_date ≠ none :=
    fun r hr => hdates r (TablesPy.dedupByKey_subset rows r hr)
  have hd1 : TablesPy.distinctKeys (TablesPy.ingestInstalledApps store rows) :=
    TablesPy.insert_data_distinct (TablesPy.dedupByKey rows) store hdd h
  refine ⟨?_, hd1, TablesPy.insert_data_distinct (TablesPy.dedupByKey rows) _ hdd hd1⟩
  apply TablesPy.insert_data_length (TablesPy.dedupByKey rows) _ hdd hd1
  intro r hr
  exact TablesPy.insert_data_hasKey_of_mem (TablesPy.dedupByKey rows) store r hr

/-- C3, witness: re-ingesting a concrete two-app file (with a repeated
install record, all install dates present) leaves the store row count
unchanged. -/
theorem claim3_witness :
    (TablesPy.ingestInstalledApps
        (TablesPy.ingestInstalledApps []
          [⟨"Maps", "com.maps", some ⟨1700000000, some "UTC"⟩⟩,
           ⟨"Maps", "com.maps", some ⟨1700000000, some "UTC"⟩⟩,
           ⟨"Mail", "com.mail", some ⟨1700003600, some "UTC"⟩⟩])
        [⟨"Maps", "com.maps", some ⟨1700000000, some "UTC"⟩⟩,
         ⟨"Maps", "com.maps", some ⟨1700000000, some "UTC"⟩⟩,
         ⟨"Mail", "com.mail", some ⟨1700003600, some "UTC"⟩⟩]).length
      = (TablesPy.ingestInstalledApps []
          [⟨"Maps", "com.maps", some ⟨1700000000, some "UTC"⟩⟩,
           ⟨"Maps", "com.maps", some ⟨1700000000, some "UTC"⟩⟩,
           ⟨"Mail", "com.mail", some ⟨1700003600, some "UTC"⟩⟩]).length :=
  (claim3_reingest_idempotent []
    [⟨"Maps", "com.maps", some ⟨1700000000, some "UTC"⟩⟩,
     ⟨"Maps", "com.maps", some ⟨1700000000, some "UTC"⟩⟩,
     ⟨"Mail", "com.mail", some ⟨1700003600, some "UTC"⟩⟩]
    List.Pairwise.nil (by decide)).1

/-- C2, counterexample: the header set {Application, Time, Text,
Messenger, Sender} is a superset of the normalized required keylog
headers, yet the identifier resolves it to ChatMessages, because the
ChatMessages 0.8-ratio match is tested before the loop ever reaches
the Keylogs entry and its special case. -/
theorem claim2_counterexample :
    DataProcessor.requiredKeylogHeaders.all
        (fun h => ((["Application", "Time", "Text", "Messenger", "Sender"].map
          normalize_column_name)).contains h) = true
      ∧ DataProcessor.identify_table ["Application", "Time", "Text", "Messenger", "Sender"]
          = some "ChatMessages" := by
  constructor
  · decide
  · decide

/-- C2, amended: a table whose normalized header set contains
{application, time, text} resolves to Keylogs provided none of the
five record types declared before Keylogs (Contacts, InstalledApps,
Calls, SMS, ChatMessages) already matches; the special case takes
precedence only over the ratio matching of the Keylogs/KeylogImport
entries themselves.  In particular the exact header set {Application,
Time, Text} resolves to Keylogs. -/
theorem claim2_amended (headers : List String)
    (hsub : DataProcessor.requiredKeylogHeaders.all
      (fun h => (headers.map normalize_column_name).contains h) = true)
    (hfive : ∀ e ∈ DataProcessor.TABLE_SCHEMAS.take 5,
      DataProcessor.matchesEntry (headers.map normalize_column_name) e = false) :
    DataProcessor.identify_table headers = some "Keylogs" := by
  have h1 := hfive ("Contacts", DataProcessor.ContactsSchema)
    (by simp [DataProcessor.TABLE_SCHEMAS])
  have h2 := hfive ("InstalledApps", DataProcessor.InstalledAppsSchema)
    (by simp [DataProcessor.TABLE_SCHEMAS])
  have h3 := hfive ("Calls", DataProcessor.CallsSchema)
    (by simp [DataProcessor.TABLE_SCHEMAS])
  have h4 := hfive ("SMS", DataProcessor.SMSSchema)
    (by simp [DataProcessor.TABLE_SCHEMAS])
  have h5 := hfive ("ChatMessages", DataProcessor.ChatMessagesSchema)
    (by simp [DataProcessor.TABLE_SCHEMAS])
  have h6 : DataProcessor.matchesEntry (headers.map normalize_column_name)
      ("Keylogs", DataProcessor.KeylogsSchema) = true := by
    simp only [DataProcessor.matchesEntry, hsub]
    rfl
  unfold DataProcessor.identify_table
  simp only [DataProcessor.TABLE_SCHEMAS, DataProcessor.identifyList, h1, h2, h3, h4, h5, h6]
  rfl

/-- C2, witness: the exact header row Application, Time, Text resolves
to Keylogs through the amended statement. -/
theorem claim2_witness :
    DataProcessor.identify_table ["Application", "Time", "Text"] = some "Keylogs" :=
  claim2_amended ["Application", "Time", "Text"] (by decide) (by decide)

namespace DataProcessor

/-- Projecting the column mapping to its canonical side selects the
canonical columns whose resolution succeeded. -/
theorem filterMap_map_snd (l : List String) (f : String → Option String) :
    (l.filterMap (fun a => (f a).map (fun b => (b, a)))).map Prod.snd
      = l.filter (fun a => (f a).isSome) := by
  induction l with
  | nil => rfl
  | cons a t ih =>
    cases h : f a <;> simp [List.filterMap_cons, h, ih, List.filter_cons]

/-- A normalized name has an original header exactly when it occurs in
the normalized header list. -/
theorem norm_to_orig_isSome (headers : List String) (k : String) :
    (norm_to_orig headers k).isSome = (headers.map normalize_column_name).contains k := by
  rw [Bool.eq_iff_iff]
  simp only [norm_to_orig, List.find?_isSome, List.mem_reverse, beq_iff_eq,
    List.contains_iff_exists_mem_beq, List.mem_map]
  constructor
  · rintro ⟨c, hc, rfl⟩
    exact ⟨normalize_column_name c, ⟨c, hc, rfl⟩, by simp⟩
  · rintro ⟨b, ⟨c, hc, rfl⟩, hbeq⟩
    exact ⟨c, hc, by simpa using hbeq.symm⟩

end DataProcessor

/-- C1, counterexample: in the raw table with the single header
"Email Id" — a declared alias of the Contacts canonical field "email",
present under normalized-name comparison — the claimed resolution rule
resolves "email", yet `validate_data` resolves nothing and fails with
the schema error, because it compares only canonical names and never
consults the alias declarations. -/
theorem claim1_counterexample :
    resolvedPerClaim ["Email Id"] DataProcessor.ContactsSchema = ["email"]
      ∧ DataProcessor.validate_data errParser "UTC" ⟨["Email Id"], []⟩ "Contacts"
          = .error (DataProcessor.noMatchMsg DataProcessor.ContactsSchema) := by
  constructor
  · decide
  · rfl

/-- C1, amended: for every raw table and identified record type, the
column normalizer resolves each canonical field solely by direct
presence of the canonical name under normalized-name comparison — a
declared alias is honoured only in so far as its normalized form
coincides with the canonical name; unresolved canonical fields are
absent from the output without error, and the schema error is raised
exactly when zero canonical fields resolve under that rule. -/
theorem claim1_amended (dateutilParse : String → Except String PyDatetime) (tz : String)
    (headers : List String) (rows : List (List RawValue)) (tableName : String) (schema : Schema)
    (hlk : DataProcessor.TABLE_SCHEMAS.lookup tableName = some schema) :
    (DataProcessor.column_mapping headers schema).map Prod.snd
        = schema.columns.filter
            (fun c => (headers.map normalize_column_name).contains (normalize_column_name c))
      ∧ (DataProcessor.validate_data dateutilParse tz ⟨headers, rows⟩ tableName
            = .error (DataProcessor.noMatchMsg schema)
          ↔ schema.columns.filter
              (fun c => (headers.map normalize_column_name).contains (normalize_column_name c))
            = []) := by
  have hmap : (DataProcessor.column_mapping headers schema).map Prod.snd
      = schema.columns.filter
          (fun c => (headers.map normalize_column_name).contains (normalize_column_name c)) := by
    unfold DataProcessor.column_mapping
    rw [DataProcessor.filterMap_map_snd]
    exact List.filter_congr (fun x _ => DataProcessor.norm_to_orig_isSome headers
      (normalize_column_name x))
  refine ⟨hmap, ?_⟩
  rw [← hmap]
  simp only [DataProcessor.validate_data, hlk]
  by_cases hc : (DataProcessor.column_mapping headers schema).isEmpty
  · have hnil : DataProcessor.column_mapping headers schema = [] := List.isEmpty_iff.mp hc
    simp [hc, hnil]
  · have hne : DataProcessor.column_mapping headers schema ≠ [] := by
      intro e
      exact hc (List.isEmpty_iff.mpr e)
    simp [hc, List.map_eq_nil_iff, hne]

/-- C1, witness: with headers Name and Email Id against the Contacts
schema, exactly the canonical field name resolves (Email Id is
ignored), and the schema error is not raised. -/
theorem claim1_witness :
    (DataProcessor.column_mapping ["Name", "Email Id"] DataProcessor.ContactsSchema).map Prod.snd
        = DataProcessor.ContactsSchema.columns.filter
            (fun c => ((["Name", "Email Id"].map normalize_column_name)).contains
              (normalize_column_name c))
      ∧ (DataProcessor.validate_data errParser "UTC" ⟨["Name", "Email Id"], []⟩ "Contacts"
            = .error (DataProcessor.noMatchMsg DataProcessor.ContactsSchema)
          ↔ DataProcessor.ContactsSchema.columns.filter
              (fun c => ((["Name", "Email Id"].map normalize_column_name)).contains
                (normalize_column_name c))
            = []) :=
  claim1_amended errParser "UTC" ["Name", "Email Id"] [] "Contacts"
    DataProcessor.ContactsSchema rfl

namespace DataProcessor

/-- The identification loop falls through to `None` exactly when no
entry matches. -/
theorem identifyList_eq_none (fileHeaders : List String) (L : List (String × Schema))
    (h : ∀ e ∈ L, matchesEntry fileHeaders e = false) :
    identifyList fileHeaders L = none := by
  induction L with
  | nil => rfl
  | cons e rest ih =>
    rw [identifyList, if_neg (by simp [h e (List.mem_cons_self e rest)]),
      ih (fun x hx => h x (List.mem_cons_of_mem e hx))]

/-- If the normalized header set contains the three required keylog
headers, the schema-header ratio of a keylog-shaped schema is already
1, hence at the threshold. -/
theorem keylog_subset_ratio (hn : List String) (cols : List String)
    (hcols : normSet cols = ["application", "time", "text"])
    (hall : requiredKeylogHeaders.all (fun h => hn.contains h) = true) :
    ratioGe (interCount (normSet cols) hn) (normSet cols).length = true := by
  have ha : ("application" ∈ hn) ∧ ("time" ∈ hn) ∧ ("text" ∈ hn) := by
    simpa [requiredKeylogHeaders] using hall
  have hi : interCount (normSet cols) hn = 3 := by
    rw [hcols]
    simp [interCount, ha.1, ha.2.1, ha.2.2]
  rw [hi, hcols]
  rfl

end DataProcessor

/-- C4: for every input table whose normalized headers reach the 0.8
overlap threshold against no record type (neither through schema
headers nor through rename headers), the ingestion call fails with the
schema-unidentified error before the store connection is even used:
the store is returned completely unchanged. -/
theorem claim4_unidentified_untouched (dateutilParse : String → Except String PyDatetime)
    (tz : String) (store : DataProcessor.Store) (t : Table)
    (hno : ∀ e ∈ DataProcessor.TABLE_SCHEMAS,
      DataProcessor.ratioMatches (t.headers.map normalize_column_name) e = false) :
    DataProcessor.process_and_insert_data dateutilParse tz store t
      = (store, .error DataProcessor.unidentifiedMsg) := by
  have hid : DataProcessor.identify_table t.headers = none := by
    apply DataProcessor.identifyList_eq_none
    intro e he
    have hr := hno e he
    simp only [DataProcessor.TABLE_SCHEMAS, List.mem_cons, List.not_mem_nil, or_false] at he
    rcases he with rfl | rfl | rfl | rfl | rfl | rfl | rfl
    · simp [DataProcessor.matchesEntry, hr]
    · simp [DataProcessor.matchesEntry, hr]
    · simp [DataProcessor.matchesEntry, hr]
    · simp [DataProcessor.matchesEntry, hr]
    · simp [DataProcessor.matchesEntry, hr]
    · cases hsub : DataProcessor.requiredKeylogHeaders.all
          (fun h => (t.headers.map normalize_column_name).contains h) with
      | false =>
        simp only [DataProcessor.matchesEntry, hsub, hr, Bool.and_false, Bool.or_false]
      | true =>
        exfalso
        have := DataProcessor.keylog_subset_ratio (t.headers.map normalize_column_name)
          DataProcessor.KeylogsSchema.columns rfl hsub
        simp [DataProcessor.ratioMatches, this] at hr
    · cases hsub : DataProcessor.requiredKeylogHeaders.all
          (fun h => (t.headers.map normalize_column_name).contains h) with
      | false =>
        simp only [DataProcessor.matchesEntry, hsub, hr, Bool.and_false, Bool.or_false]
      | true =>
        exfalso
        have := DataProcessor.keylog_subset_ratio (t.headers.map normalize_column_name)
          DataProcessor.KeylogImportSchema.columns rfl hsub
        simp [DataProcessor.ratioMatches, this] at hr
  simp [DataProcessor.process_and_insert_data, hid]

namespace DataProcessor

/-- `contains` depends only on membership. -/
theorem contains_congr (hn₁ hn₂ : List String) (h : ∀ x, x ∈ hn₁ ↔ x ∈ hn₂) (x : String) :
    hn₁.contains x = hn₂.contains x := by
  rw [Bool.eq_iff_iff]
  simp only [List.contains_iff_exists_mem_beq]
  constructor
  · rintro ⟨b, hb, hab⟩
    exact ⟨b, (h b).mp hb, hab⟩
  · rintro ⟨b, hb, hab⟩
    exact ⟨b, (h b).mpr hb, hab⟩

/-- The intersection count depends only on the membership of the file
header set. -/
theorem interCount_congr (S hn₁ hn₂ : List String) (h : ∀ x, x ∈ hn₁ ↔ x ∈ hn₂) :
    interCount S hn₁ = interCount S hn₂ := by
  unfold interCount
  rw [List.filter_congr (fun x _ => contains_congr hn₁ hn₂ h x)]

/-- The per-entry match test depends only on the membership of the
file header set. -/
theorem matchesEntry_congr (hn₁ hn₂ : List String) (h : ∀ x, x ∈ hn₁ ↔ x ∈ hn₂)
    (e : String × Schema) : matchesEntry hn₁ e = matchesEntry hn₂ e := by
  unfold matchesEntry ratioMatches
  rw [interCount_congr _ _ _ h, interCount_congr _ _ _ h,
    congrArg (fun p => requiredKeylogHeaders.all p)
      (funext (fun x => contains_congr hn₁ hn₂ h x))]

/-- The identification loop depends only on the membership of the file
header set. -/
theorem identifyList_congr (hn₁ hn₂ : List String) (h : ∀ x, x ∈ hn₁ ↔ x ∈ hn₂) :
    ∀ L : List (String × Schema), identifyList hn₁ L = identifyList hn₂ L
  | [] => rfl
  | e :: rest => by
    rw [identifyList, identifyList, matchesEntry_congr hn₁ hn₂ h e,
      identifyList_congr hn₁ hn₂ h rest]

/-- `identify_table` is invariant under permutation of the header row:
it only ever inspects the header set. -/
theorem identify_table_perm (hs cols : List String) (hperm : hs.Perm cols) :
    identify_table hs = identify_table cols :=
  identifyList_congr _ _ (fun _ => (hperm.map normalize_column_name).mem_iff) TABLE_SCHEMAS

/-- A header row that is a permutation of a schema's canonical column
list yields schema-header match ratio 1. -/
theorem perm_ratio_one (schema : Schema) (hs : List String) (hperm : hs.Perm schema.columns)
    (n : Nat)
    (h1 : interCount (normSet schema.columns) (schema.columns.map normalize_column_name) = n)
    (h2 : (normSet schema.columns).length = n) (hn0 : n ≠ 0) :
    matchRatioQ (normSet schema.columns) (hs.map normalize_column_name) = 1 := by
  have hm : ∀ x, x ∈ hs.map normalize_column_name
      ↔ x ∈ schema.columns.map normalize_column_name :=
    fun x => (hperm.map normalize_column_name).mem_iff
  rw [matchRatioQ, interCount_congr _ _ _ hm, h1, h2, div_self]
  exact_mod_cast hn0

end DataProcessor

/-- C5: for each of the six record types, any table whose header row
is an exact copy of the type's canonical field list — in any column
order — identifies as that type, with schema-header overlap ratio
exactly 1. -/
theorem claim5_exact_copy_identifies (name : String) (schema : Schema)
    (hmem : (name, schema) ∈ DataProcessor.TABLE_SCHEMAS.take 6)
    (hs : List String) (hperm : hs.Perm schema.columns) :
    DataProcessor.identify_table hs = some name
      ∧ DataProcessor.matchRatioQ (DataProcessor.normSet schema.columns)
          (hs.map normalize_column_name) = 1 := by
  have hid := DataProcessor.identify_table_perm hs schema.columns hperm
  simp only [DataProcessor.TABLE_SCHEMAS, List.take, List.mem_cons, List.not_mem_nil,
    or_false, Prod.mk.injEq] at hmem
  rcases hmem with ⟨rfl, rfl⟩ | ⟨rfl, rfl⟩ | ⟨rfl, rfl⟩ | ⟨rfl, rfl⟩ | ⟨rfl, rfl⟩ | ⟨rfl, rfl⟩
  · exact ⟨hid.trans (by decide),
      DataProcessor.perm_ratio_one _ hs hperm 4 (by decide) (by decide) (by decide)⟩
  · exact ⟨hid.trans (by decide),
      DataProcessor.perm_ratio_one _ hs hperm 3 (by decide) (by decide) (by decide)⟩
  · exact ⟨hid.trans (by decide),
      DataProcessor.perm_ratio_one _ hs hperm 5 (by decide) (by decide) (by decide)⟩
  · exact ⟨hid.trans (by decide),
      DataProcessor.perm_ratio_one _ hs hperm 5 (by decide) (by decide) (by decide)⟩
  · exact ⟨hid.trans (by decide),
      DataProcessor.perm_ratio_one _ hs hperm 4 (by decide) (by decide) (by decide)⟩
  · exact ⟨hid.trans (by decide),
      DataProcessor.perm_ratio_one _ hs hperm 3 (by decide) (by decide) (by decide)⟩

/-- C5, witness: the Calls canonical field list, reversed, identifies
as Calls with ratio 1. -/
theorem claim5_witness :
    DataProcessor.identify_table ["location", "duration", "from_to", "time", "call_type"]
        = some "Calls"
      ∧ DataProcessor.matchRatioQ (DataProcessor.normSet DataProcessor.CallsSchema.columns)
          (["location", "duration", "from_to", "time", "call_type"].map normalize_column_name)
        = 1 :=
  claim5_exact_copy_identifies "Calls" DataProcessor.CallsSchema (by simp [DataProcessor.TABLE_SCHEMAS])
    ["location", "duration", "from_to", "time", "call_type"] (by decide)

/-- C4, witness: a table with the unrecognizable headers alpha, beta
raises the schema-unidentified error and leaves the store unchanged. -/
theorem claim4_witness :
    DataProcessor.process_and_insert_data errParser "UTC" [] ⟨["alpha", "beta"], []⟩
      = ([], .error DataProcessor.unidentifiedMsg) :=
  claim4_unidentified_untouched errParser "UTC" [] ⟨["alpha", "beta"], []⟩ (by decide)

namespace DataProcessor

/-- The batch slices of a table have exactly the sizes `sliceSizes`
computes from its row count. -/
theorem batchSlices_map_length :
    ∀ (n bs : Nat) (rows : List (List Value)), rows.length = n →
      (batchSlices rows bs).map List.length = sliceSizes n bs := by
  intro n
  induction n using Nat.strong_induction_on with
  | _ n ih =>
    intro bs rows hlen
    rw [batchSlices.eq_def, sliceSizes.eq_def]
    by_cases h : rows.isEmpty ∨ bs = 0
    · have hn : n = 0 ∨ bs = 0 := by
        rcases h with h | h
        · exact Or.inl (hlen ▸ List.isEmpty_iff_length_eq_zero.mp h)
        · exact Or.inr h
      rw [dif_pos h, dif_pos hn]
      rfl
    · have hn : ¬(n = 0 ∨ bs = 0) := by
        rcases not_or.mp h with ⟨h1, h2⟩
        push_neg
        refine ⟨fun e => h1 ?_, h2⟩
        exact List.isEmpty_iff_length_eq_zero.mpr (hlen.trans e)
      rcases not_or.mp hn with ⟨hn0, hbs0⟩
      rw [dif_neg h, dif_neg hn, List.map_cons, List.length_take, hlen,
        ih (n - bs) (by omega) bs (rows.drop bs) (by rw [List.length_drop, hlen])]

/-- Unrolling the insertion fold: the writes are appended to the store
in batch order and the processed-row counter accumulates the batch
lengths. -/
theorem insertLoop_foldl (L : List (List (List Value))) (tableName : String) :
    ∀ (st : Store) (acc : Nat),
      L.foldl (fun a b => (a.1 ++ [(tableName, b)], a.2 + b.length)) (st, acc)
        = (st ++ L.map (fun b => (tableName, b)), acc + (L.map List.length).sum) := by
  induction L with
  | nil =>
    intro st acc
    simp
  | cons b rest ih =>
    intro st acc
    simp only [List.foldl_cons, List.map_cons, List.sum_cons]
    rw [ih (st ++ [(tableName, b)]) (acc + b.length)]
    simp [List.append_assoc, Nat.add_assoc]

end DataProcessor

/-- C9: ingesting 2500 validated records with the default batch size
of 1000 issues exactly the three sequential writes of sizes 1000,
1000, 500 — appended to the store connection in that order — and
reports 2500 processed rows when the store accepts every batch. -/
theorem claim9_batch_boundary (store : DataProcessor.Store) (tableName : String)
    (rows : List (List Value)) (h : rows.length = 2500) :
    (DataProcessor.batchSlices rows DataProcessor.BATCH_SIZE).map List.length
        = [1000, 1000, 500]
      ∧ (DataProcessor.insertLoop store tableName rows).2 = 2500
      ∧ (DataProcessor.insertLoop store tableName rows).1
          = store ++ (DataProcessor.batchSlices rows DataProcessor.BATCH_SIZE).map
              (fun b => (tableName, b)) := by
  have hsz : DataProcessor.sliceSizes 2500 DataProcessor.BATCH_SIZE = [1000, 1000, 500] := by
    rw [DataProcessor.sliceSizes.eq_def]
    norm_num [DataProcessor.BATCH_SIZE]
    rw [DataProcessor.sliceSizes.eq_def]
    norm_num
    rw [DataProcessor.sliceSizes.eq_def]
    norm_num
    rw [DataProcessor.sliceSizes.eq_def]
    norm_num
  have hml : (DataProcessor.batchSlices rows DataProcessor.BATCH_SIZE).map List.length
      = [1000, 1000, 500] := by
    rw [DataProcessor.batchSlices_map_length 2500 DataProcessor.BATCH_SIZE rows h, hsz]
  refine ⟨hml, ?_, ?_⟩
  · unfold DataProcessor.insertLoop
    rw [DataProcessor.insertLoop_foldl, hml]
    rfl
  · unfold DataProcessor.insertLoop
    rw [DataProcessor.insertLoop_foldl]

/-- C9, witness: 2500 concrete rows are written as three batches of
1000, 1000 and 500 with 2500 processed rows. -/
theorem claim9_witness :
    (DataProcessor.batchSlices (List.replicate 2500 ([] : List Value))
          DataProcessor.BATCH_SIZE).map List.length = [1000, 1000, 500]
      ∧ (DataProcessor.insertLoop [] "SMS" (List.replicate 2500 [])).2 = 2500
      ∧ (DataProcessor.insertLoop [] "SMS" (List.replicate 2500 [])).1
          = [] ++ (DataProcessor.batchSlices (List.replicate 2500 ([] : List Value))
              DataProcessor.BATCH_SIZE).map (fun b => ("SMS", b)) :=
  claim9_batch_boundary [] "SMS" (List.replicate 2500 []) (by rw [List.length_replicate])

/-- C10: the table identifier never returns the KeylogImport record
type: its match condition coincides with that of Keylogs, which is
checked earlier in the registry's declared iteration order, so the
KeylogImport branch can never be the first to fire. -/
theorem claim10_keylogimport_unreachable (headers : List String) :
    (DataProcessor.identify_table headers == some "KeylogImport") = false := by
  unfold DataProcessor.identify_table
  simp only [DataProcessor.TABLE_SCHEMAS, DataProcessor.identifyList]
  split
  · rfl
  split
  · rfl
  split
  · rfl
  split
  · rfl
  split
  · rfl
  split
  · rfl
  rename_i hkeylogs
  rw [DataProcessor.matchesEntry_keylog_eq]
  simp only [if_neg hkeylogs]
  rfl
